import Mathlib

/-!
Shallow embedding of the web-jingzi domain-rewriting HTTP reverse proxy
(src/server.rs, src/config.rs, src/constants.rs) together with theorems
checking the natural-language specification against it.

Modelling conventions:
  - Rust `String`/`&str` are Lean `String` (lists of chars; both sides are
    valid unicode, so Rust byte-level substring search on UTF-8 coincides
    with char-level search).
  - `HashMap<String, String>` (the alias table `domain_name`) is an
    association list `List (String × String)`; the list order stands for
    the iteration order of the map.
  - `HashSet<String>` (the token store) is a `List String` with set
    semantics for insertion.
  - http-types headers are modelled as a multi-valued association list
    with already-lowercased names (http-types normalises header names to
    lower case on construction).
  - Request bodies are either valid utf-8 text (`Body.utf8`) or opaque
    bytes that fail utf-8 decoding (`Body.raw`); response bodies carry an
    optional content-encoding wrapper (`RespBody.encoded`), standing for
    the compressed stream produced or consumed by the `Coder`. http-types
    `body_string` is `take_body` followed by `into_string`: the body is
    consumed (replaced by `Body::empty()`) before decoding is attempted,
    so a failed decode leaves an empty body behind.
  - External effects (DNS, TCP, TLS, the actual upstream exchange) are
    abstracted into a function `up : Request → Response` handed to the
    pipeline; the request passed to it is exactly the request the code
    hands to `async_h1::connect`.
-/

/-! ## String machinery: models of Rust `str` operations -/

/-- Model of Rust `str::contains` restricted to prefix position:
`List.isPrefixOf` from the library is used directly below. This def is a
char-level occurrence test: does `p` occur as a contiguous infix of `s`?
Models Rust `String::contains(pat)`. -/
def listInfixB (p : List Char) : List Char → Bool
  | [] => p.isEmpty
  | c :: rest => p.isPrefixOf (c :: rest) || listInfixB p rest

/-- Model of Rust `haystack.contains(pat)` on strings. -/
def containsStr (hay pat : String) : Bool :=
  listInfixB pat.data hay.data

/-- Fuel-driven core of Rust `str::replace`: scan `s` left to right; at
each position, if the (non-empty) pattern is a prefix, emit the
replacement and skip the pattern; otherwise keep the char. The fuel is
always instantiated with the length of `s`, which suffices because every
step consumes at least one char; the 0-fuel fallback returns the
remainder unchanged. -/
def replaceAux (pat rep : List Char) : Nat → List Char → List Char
  | _, [] => []
  | 0, s => s
  | fuel + 1, c :: rest =>
    if pat ≠ [] ∧ pat.isPrefixOf (c :: rest) then
      rep ++ replaceAux pat rep fuel ((c :: rest).drop pat.length)
    else
      c :: replaceAux pat rep fuel rest

/-- Model of Rust `s.replace(pat, rep)` (all non-overlapping occurrences,
left to right). For the empty pattern Rust inserts `rep` at every char
boundary; that case never arises from the proxy (patterns are configured
domain names) but is modelled faithfully. -/
def strReplace (s pat rep : String) : String :=
  if pat.data = [] then
    ⟨rep.data ++ s.data.flatMap (fun c => c :: rep.data)⟩
  else
    ⟨replaceAux pat.data rep.data s.data.length s.data⟩

/-- Fuel-driven core of Rust `str::split(sep)` for a non-empty separator:
scan left to right, cutting at each non-overlapping occurrence of `sep`. -/
def splitListAux (sep : List Char) : Nat → List Char → List (List Char)
  | _, [] => [[]]
  | 0, s => [s]
  | fuel + 1, c :: rest =>
    if sep ≠ [] ∧ sep.isPrefixOf (c :: rest) then
      [] :: splitListAux sep fuel ((c :: rest).drop sep.length)
    else
      match splitListAux sep fuel rest with
      | [] => [[c]]
      | h :: t => (c :: h) :: t

/-- Model of Rust `s.split(sep)` collected into a list (used with the
separators "; " and "=", both non-empty). -/
def strSplit (s sep : String) : List String :=
  if sep.data = [] then [s]
  else (splitListAux sep.data s.data.length s.data).map (fun l => ⟨l⟩)

/-! ## Configuration data model (src/config.rs) -/

/-- An account entry: src/config.rs `struct Account`. -/
structure Account where
  username : String
  password : String
deriving DecidableEq, BEq, Repr

/-- Authorization section of the config: src/config.rs `struct Authorization`. -/
structure Authorization where
  enabled : Bool
  domain_list : Option (List String)
  account : Option (List Account)
deriving DecidableEq, Repr

/-- The proxy configuration: src/config.rs `struct Config`. `domain_name`
maps alias domain (key) to real domain (value); modelled as an
association list whose order stands for the map's iteration order. -/
structure Config where
  listen_address : String
  socks5_server : Option String
  domain_name : List (String × String)
  use_https : Option (List String)
  authorization : Authorization
deriving DecidableEq, Repr

/-! ## HTTP data model (granularity of http-types as used by src/server.rs) -/

/-- A request or response body after transport decoding: either valid
utf-8 text or opaque bytes on which `body_string` fails. -/
inductive Body where
  | utf8 (s : String)
  | raw (bytes : List Nat)
deriving DecidableEq, Repr

/-- A response body, possibly wrapped in a content encoding: `encoded e b`
stands for the payload `b` compressed with algorithm `e` (the state the
`Coder` stream wrappers produce or consume). -/
inductive RespBody where
  | plain (b : Body)
  | encoded (enc : String) (b : Body)
deriving DecidableEq, Repr

/-- An inbound HTTP request as seen by `Forward::forward`. `domain` is
`req.url().domain()` (the model restricts attention to domain-named
hosts, for which `url.host_str()` coincides). `headers` carry lowercased
names and may repeat a name. `contentType` is the essence (type/subtype)
of the Content-Type header. `bodyAccount` is the result of the external
serde JSON parse of the body as an `Account` (`body_json`), `none` when
parsing fails. -/
structure Request where
  domain : Option String
  scheme : String
  path : String
  query : List (String × String)
  headers : List (String × String)
  contentType : Option String
  body : Body
  bodyAccount : Option Account
deriving DecidableEq, Repr

/-- An HTTP response. `contentType` is the essence of Content-Type. -/
structure Response where
  status : Nat
  contentType : Option String
  headers : List (String × String)
  body : RespBody
deriving DecidableEq, Repr

/-- All values of header `n` in a request, in order: models iterating
`req.header(n)`, which matches names case-insensitively (names are stored
lowercased here). -/
def headerValues (req : Request) (n : String) : List String :=
  (req.headers.filter (fun p => p.1 == n)).map (fun p => p.2)

/-- First value of header `n`: models `req.header(n).map(|v| v.as_str())`
(http-types `HeaderValues` dereferences to its first value). -/
def headerFirst (req : Request) (n : String) : Option String :=
  (headerValues req n).head?

/-- Model of http-types `insert_header`: replaces every existing value of
the name with the single new value. -/
def insertHeader (req : Request) (n v : String) : Request :=
  { req with headers := req.headers.filter (fun p => !(p.1 == n)) ++ [(n, v)] }

/-- Response-side header values. -/
def headerValuesR (resp : Response) (n : String) : List String :=
  (resp.headers.filter (fun p => p.1 == n)).map (fun p => p.2)

/-- Response-side first header value. -/
def headerFirstR (resp : Response) (n : String) : Option String :=
  (headerValuesR resp n).head?

/-- Response-side `insert_header`. -/
def insertHeaderR (resp : Response) (n v : String) : Response :=
  { resp with headers := resp.headers.filter (fun p => !(p.1 == n)) ++ [(n, v)] }

/-- Model of http-types `append_header` (used for Set-Cookie on the login
response): appends without removing existing values. -/
def appendHeaderR (resp : Response) (n v : String) : Response :=
  { resp with headers := resp.headers ++ [(n, v)] }

/-! ## Header-name and path constants from src/server.rs -/

/-- COOKIE_NAME in src/server.rs line 19. -/
def cookieName : String := "__wj_token"

/-- The path compared against in src/server.rs line 63. -/
def loginPath : String := "/__wm__login"

/-- Lowercased name of the loop-prevention sentinel header X-Web-Jingzi. -/
def hdrXWJ : String := "x-web-jingzi"

def hdrHost : String := "host"

def hdrOrigin : String := "origin"

def hdrReferer : String := "referer"

def hdrCookie : String := "cookie"

def hdrXScheme : String := "x-scheme"

def hdrSetCookie : String := "set-cookie"

def hdrContentEncoding : String := "content-encoding"

def schemeHttp : String := "http"

def schemeHttps : String := "https"

/-- Cookie-pair separator used by the cookie parsing loop. -/
def sepCookiePair : String := "; "

/-- Pair separator used by the cookie parsing loop. -/
def sepEq : String := "="

/-- Outbound response headers rewritten by `Forward::replace_header`
(src/server.rs lines 253-259). -/
def replaceHeaderNames : List String :=
  ["location", "set-cookie", "access-control-allow-origin",
   "content-security-policy", "x-frame-options"]

/-- Inbound request headers rewritten by `Forward::restore_header`
(src/server.rs line 270). -/
def restoreHeaderNames : List String := ["origin", "referer"]

/-! ## Canned responses (src/server.rs lines 338-357) -/

/-- Stand-in for the embedded login page asset src/login.html (external
collaborator; its exact contents are irrelevant to every claim). -/
def loginPageHtml : String := "login page"

/-- `http_error`: 500 with a plain-text message. -/
def httpError (e : String) : Response :=
  { status := 500, contentType := some ("text/plain"), headers := [], body := .plain (.utf8 e) }

/-- `show_login_page`: 200 with the embedded HTML login page. -/
def loginPageResp : Response :=
  { status := 200, contentType := some ("text/html"), headers := [], body := .plain (.utf8 loginPageHtml) }

/-- `result(success)`: 200 JSON body reporting login success. -/
def resultResp (success : Bool) : Response :=
  { status := 200, contentType := some ("application/json"), headers := [],
    body := .plain (.utf8 (if success then "\x7b\"success\": true\x7d" else "\x7b\"success\": false\x7d")) }

/-- Serialization of the login cookie built in src/server.rs lines 74-79
(external cookie crate; the Expires attribute, derived from the wall
clock, is elided — no claim depends on the exact serialization). -/
def cookieHeaderValue (token domain : String) : String :=
  cookieName ++ sepEq ++ token ++ "; Domain=" ++ domain ++ "; Secure; HttpOnly"

/-! ## Token store (src/server.rs lines 21-31): in-memory HashSet -/

/-- `Forward::new` creates an empty in-memory token set. -/
def newTokenStore : List String := []

/-- HashSet insertion (set semantics). -/
def insertTok (s : List String) (t : String) : List String :=
  if s.contains t then s else t :: s

/-- HashSet membership. -/
def containsTok (s : List String) (t : String) : Bool :=
  s.contains t

/-- A process restart: the token store lives only in process memory
(`Mutex<HashSet<String>>` built afresh by `Forward::new` in `run`,
src/server.rs line 363), so a restart discards it entirely. -/
def restartStore (_ : List String) : List String := newTokenStore

/-! ## Domain checking and substitution (src/server.rs lines 33-54, 236-250) -/

/-- The double loop of `Forward::check_domain` (src/server.rs lines
33-45): the first ordered pair (i, j) of configured aliases with j ≠ i
and j containing i, returned as (j, i) — the two domains named by the
error message — or `none` when the check passes. -/
def findConflict (keys : List String) : Option (String × String) :=
  keys.findSome? (fun i =>
    keys.findSome? (fun j =>
      if j ≠ i ∧ containsStr j i then some (j, i) else none))

/-- `Forward::check_domain_list_in_domain` (src/server.rs lines 47-54):
first configured protected-domain substring contained in the request
domain. -/
def checkDomainListInDomain (domain_list : List String) (domain : String) : Option String :=
  domain_list.find? (fun i => containsStr domain i)

/-- `Forward::replace_domain` (src/server.rs lines 236-242): outbound
(real → alias) substitution, iterated over the alias table entries. -/
def replace_domain (cfg : Config) (s : String) : String :=
  cfg.domain_name.foldl (fun result kv => strReplace result kv.2 kv.1) s

/-- `Forward::restore_domain` (src/server.rs lines 244-250): inbound
(alias → real) substitution, iterated over the alias table entries. -/
def restore_domain (cfg : Config) (s : String) : String :=
  cfg.domain_name.foldl (fun result kv => strReplace result kv.1 kv.2) s

/-! ## Cookie parsing (src/server.rs lines 94-102) -/

/-- One iteration body of the cookie loop: split an item on every '=';
when this yields exactly two components whose first is COOKIE_NAME, the
second is a candidate token. -/
def tokenOfItem (item : String) : Option String :=
  match strSplit item sepEq with
  | [n, v] => if n = cookieName then some v else none
  | _ => none

/-- The cookie-scanning double loop: over every Cookie header value and
every "; "-separated item, the mutable `token` variable is overwritten by
each candidate, so the last candidate wins. -/
def parseToken (values : List String) : Option String :=
  values.foldl
    (fun acc v =>
      (strSplit v sepCookiePair).foldl
        (fun acc2 item => (tokenOfItem item).orElse (fun _ => acc2))
        acc)
    none

/-! ## Header rewriting (src/server.rs lines 252-278) -/

/-- One step of `replace_header`: rewrite the header's (first) value if
present. -/
def replStep (cfg : Config) (r : Response) (n : String) : Response :=
  match headerFirstR r n with
  | some h => insertHeaderR r n (replace_domain cfg h)
  | none => r

/-- `Forward::replace_header` (src/server.rs lines 252-267): rewrite the
outbound header list real → alias. -/
def replaceHeader (cfg : Config) (resp : Response) : Response :=
  replaceHeaderNames.foldl (replStep cfg) resp

/-- One step of `restore_header`. -/
def restStep (cfg : Config) (r : Request) (n : String) : Request :=
  match headerFirst r n with
  | some h => insertHeader r n (restore_domain cfg h)
  | none => r

/-- `Forward::restore_header` (src/server.rs lines 269-278): rewrite
Origin and Referer alias → real. -/
def restoreHeader (cfg : Config) (req : Request) : Request :=
  restoreHeaderNames.foldl (restStep cfg) req

/-! ## Body codec (src/server.rs lines 288-336) -/

/-- Direction of the `Coder`. -/
inductive CoderDir where
  | de
  | en
deriving DecidableEq, Repr

/-- `Coder::code`: when the content-encoding header names one of the
three supported algorithms, wrap or unwrap the body stream; otherwise log
and leave the body alone. Decoding a body that is not actually encoded
(or encoding one that already is) corrupts the stream in reality; the
model leaves it unchanged, and no theorem exercises that combination. -/
def coderCode (dir : CoderDir) (resp : Response) : Response :=
  match headerFirstR resp hdrContentEncoding with
  | some e =>
    if e = "gzip" ∨ e = "br" ∨ e = "deflate" then
      { resp with body :=
          match dir, resp.body with
          | .de, .encoded _ b => .plain b
          | .de, .plain b => .plain b
          | .en, .plain b => .encoded e b
          | .en, .encoded e' b => .encoded e' b }
    else resp
  | none => resp

/-! ## The forward pipeline (src/server.rs lines 56-234) -/

/-- Result of the authorization gate (src/server.rs lines 57-116):
either a short-circuit response (login result or login page) together
with the possibly-updated token store, or fall-through to the rest of the
pipeline, or a propagated `?` error from `body_json` (the connection is
torn down without a normal response). -/
inductive GateResult where
  | shortCircuit (resp : Response) (tokens : List String)
  | proceed
  | jsonError
deriving DecidableEq, Repr

/-- The authorization gate, a direct transcription of src/server.rs lines
57-116. `fresh` stands for the freshly generated UUIDv4 token. -/
def authGate (cfg : Config) (tokens : List String) (fresh : String) (req : Request) : GateResult :=
  if cfg.authorization.enabled then
    match cfg.authorization.domain_list with
    | some dl =>
      match req.domain with
      | some d =>
        match checkDomainListInDomain dl d with
        | some domain =>
          if req.path = loginPath then
            match cfg.authorization.account with
            | some account_list =>
              match req.bodyAccount with
              | some account =>
                if account_list.contains account then
                  .shortCircuit
                    (appendHeaderR (resultResp true) hdrSetCookie (cookieHeaderValue fresh domain))
                    (insertTok tokens fresh)
                else
                  .shortCircuit (resultResp false) tokens
              | none => .jsonError
            | none => .proceed
          else
            match headerValues req hdrCookie with
            | [] => .shortCircuit loginPageResp tokens
            | vs =>
              match parseToken vs with
              | some t =>
                if containsTok tokens t then .proceed
                else .shortCircuit loginPageResp tokens
              | none => .shortCircuit loginPageResp tokens
        | none => .proceed
      | none => .proceed
    | none => .proceed
  else .proceed

/-- Inbound body rewrite (src/server.rs lines 165-177): for Content-Type
essence text/plain or application/x-www-form-urlencoded, a utf-8 body is
restore-substituted. http-types `body_string` first takes the body
(`take_body` leaves `Body::empty()`) and only then attempts utf-8
decoding, so when decoding fails the Err arm merely logs and the request
continues with an EMPTY body, not the original bytes. -/
def inboundBody (cfg : Config) (req : Request) : Request :=
  match req.contentType with
  | some ct =>
    if ct = "application/x-www-form-urlencoded" ∨ ct = "text/plain" then
      match req.body with
      | .utf8 s => { req with body := .utf8 (restore_domain cfg s) }
      | .raw _ => { req with body := .utf8 "" }
    else req
  | none => req

/-- Second half of the request rewrite (src/server.rs lines 158-177):
restore the host, set the Host header, rewrite Origin/Referer, rewrite
the inbound body. `domain` is the (already known to be present) URL
domain. -/
def rewriteRequest2 (cfg : Config) (req : Request) (domain : String) : Request :=
  let host := restore_domain cfg domain
  inboundBody cfg (restoreHeader cfg (insertHeader { req with domain := some host } hdrHost host))

/-- The request rewrite (src/server.rs lines 123-177): query values,
scheme selection, path, host, headers, body. Errors are the `http_error`
short-circuit responses of the source. The scheme chosen from the
X-Scheme header is applied through `url::Url::set_scheme`, which the
model accepts exactly for http and https (external url crate). -/
def rewriteRequest (cfg : Config) (req : Request) : Except Response Request :=
  let query := req.query.map (fun qv => (qv.1, restore_domain cfg qv.2))
  match req.domain with
  | none => .error (httpError "missing domain in request")
  | some domain =>
    let scheme :=
      match cfg.use_https with
      | some use_https =>
        if use_https.contains domain then some schemeHttps
        else headerFirst req hdrXScheme
      | none => headerFirst req hdrXScheme
    let path := restore_domain cfg req.path
    match scheme with
    | some s =>
      if s = schemeHttp ∨ s = schemeHttps then
        .ok (rewriteRequest2 cfg { req with query := query, path := path, scheme := s } domain)
      else .error (httpError "invalid request")
    | none =>
      .ok (rewriteRequest2 cfg { req with query := query, path := path } domain)

/-- `port_or_known_default` for the schemes the proxy can reach this
point with. -/
def portOrKnownDefault (scheme : String) : Option Nat :=
  if scheme = schemeHttp then some 80
  else if scheme = schemeHttps then some 443
  else none

/-- Response-side processing (src/server.rs lines 210-233): outbound
header rewrite, 304 fast-path, decode, outbound body rewrite for the four
allow-listed essences, re-encode. In the allow-listed branch
`resp.body_string()` take-consumes the body before utf-8 decoding, so on
decode failure the Err arm only logs and the response continues with an
EMPTY body (a compressed body that survived De because of an unknown
content-encoding is likewise consumed; its bytes are taken to be
non-utf-8, the realistic case for a compressed stream). -/
def processResponse (cfg : Config) (resp : Response) : Response :=
  let resp := replaceHeader cfg resp
  if resp.status = 304 then resp
  else
    let resp := coderCode .de resp
    let resp :=
      match resp.contentType with
      | some ct =>
        if ct = "text/html" ∨ ct = "text/javascript" ∨ ct = "application/json"
            ∨ ct = "application/manifest+json" then
          match resp.body with
          | .plain (.utf8 s) => { resp with body := .plain (.utf8 (replace_domain cfg s)) }
          | _ => { resp with body := .plain (.utf8 "") }
        else resp
      | none => resp
    coderCode .en resp

/-- Everything after the authorization gate (src/server.rs lines
118-233): loop check, request rewrite, upstream exchange, response
processing. Returns the response together with the request handed to the
upstream HTTP exchange, when one happens. -/
def forwardCore (cfg : Config) (up : Request → Response) (req : Request) :
    Response × Option Request :=
  if headerValues req hdrXWJ ≠ [] then
    (httpError "may be circular request", none)
  else
    let req := insertHeader req hdrXWJ "true"
    match rewriteRequest cfg req with
    | .error r => (r, none)
    | .ok req =>
      match portOrKnownDefault req.scheme with
      | none => (httpError "invalid request", none)
      | some _ =>
        if req.scheme = schemeHttps ∨ req.scheme = schemeHttp then
          (processResponse cfg (up req), some req)
        else
          (httpError ("unsupported scheme: " ++ req.scheme), none)

/-- Outcome of one request through `Forward::forward`. -/
structure Outcome where
  response : Response
  upstreamReq : Option Request
  tokens : List String
deriving DecidableEq, Repr

/-- `Forward::forward` (src/server.rs lines 56-234). `none` is the `?`
error propagation from `body_json` (connection torn down). -/
def forward (cfg : Config) (tokens : List String) (fresh : String)
    (up : Request → Response) (req : Request) : Option Outcome :=
  match authGate cfg tokens fresh req with
  | .shortCircuit resp tokens' => some ⟨resp, none, tokens'⟩
  | .jsonError => none
  | .proceed =>
    let r := forwardCore cfg up req
    some ⟨r.1, r.2, tokens⟩

/-- Body of the request sent upstream, when the pipeline reaches the
upstream exchange. -/
def upstreamBody (o : Option Outcome) : Option Body :=
  o.bind (fun o => o.upstreamReq.map Request.body)

/-! ## Spec-side cookie-lookup definitions (for the refinement claim C5) -/

/-- Modelled from the spec: the cookie lookup as the spec words it
(section 4.4): split each Cookie header value on "; ", split each pair on
the FIRST '=', look for exactly the cookie name, and stop at the first
matching pair. Defined for comparison with `parseToken`, the
transcription of the source. -/
def specCookieLookup (values : List String) : Option String :=
  ((values.flatMap (fun v => strSplit v sepCookiePair)).filterMap
    (fun item =>
      match strSplit item sepEq with
      | [] => none
      | [_] => none
      | n :: rest =>
        if n = cookieName then some (String.intercalate sepEq rest) else none)).head?

/-- The amended cookie lookup: split each pair on every '=' keeping only
pairs with exactly two components, and take the LAST matching pair. -/
def lastTokenPair (values : List String) : Option String :=
  ((values.flatMap (fun v => strSplit v sepCookiePair)).filterMap tokenOfItem).getLast?

/-! ## Concrete fixtures for witnesses and counterexamples -/

/-- A one-entry configuration with authorization disabled: alias
mirror.local for real domain example.com. -/
def cfg1 : Config :=
  { listen_address := "127.0.0.1:8080", socks5_server := none,
    domain_name := [("mirror.local", "example.com")], use_https := none,
    authorization := { enabled := false, domain_list := none, account := none } }

/-- The single configured account of the auth-enabled fixtures. -/
def acct1 : Account := { username := "a", password := "b" }

/-- `cfg1` with authorization enabled, protecting mirror.local, with one
account. -/
def cfgAuth : Config :=
  { cfg1 with authorization :=
      { enabled := true, domain_list := some ["mirror.local"], account := some [acct1] } }

/-- `cfg1` with authorization enabled and a protected domain but no
account list configured. -/
def cfgAuthNoAcct : Config :=
  { cfg1 with authorization :=
      { enabled := true, domain_list := some ["mirror.local"], account := none } }

/-- A fixed upstream: always answers 200 text/html "hi". -/
def up0 : Request → Response :=
  fun _ => { status := 200, contentType := some ("text/html"), headers := [],
             body := .plain (.utf8 "hi") }

/-- Inbound request with an allow-listed (per the spec's six-type list)
essence text/html and a utf-8 body containing the alias. -/
def reqHtmlIn : Request :=
  { domain := some ("mirror.local"), scheme := "http", path := "/p", query := [],
    headers := [], contentType := some ("text/html"), body := .utf8 "mirror.local",
    bodyAccount := none }

/-- Inbound request with essence text/plain and a utf-8 body containing
the alias. -/
def reqPlainIn : Request :=
  { reqHtmlIn with contentType := some ("text/plain") }

/-- Inbound request with essence text/plain and a non-utf-8 body. -/
def reqRawIn : Request :=
  { reqHtmlIn with contentType := some ("text/plain"), body := .raw [255, 254] }

/-- Request to the protected alias carrying the loop sentinel and no
cookie. -/
def reqLoop : Request :=
  { domain := some ("mirror.local"), scheme := "http", path := "/x", query := [],
    headers := [("x-web-jingzi", "true")], contentType := none, body := .utf8 "",
    bodyAccount := none }

/-- Login submission with the canonical spec path /__wj__login and valid
credentials. -/
def reqWjLogin : Request :=
  { domain := some ("mirror.local"), scheme := "http", path := "/__wj__login", query := [],
    headers := [], contentType := some ("application/json"), body := .utf8 "",
    bodyAccount := some acct1 }

/-- Login submission with the path the source actually matches,
/__wm__login, and valid credentials. -/
def reqWmLogin : Request :=
  { reqWjLogin with path := "/__wm__login" }

/-- Upstream 304 response with an ETag header and a Location header (the
latter is in the outbound rewrite list). -/
def resp304 : Response :=
  { status := 304, contentType := none,
    headers := [("etag", "abc"), ("location", "https://example.com/")],
    body := .plain (.utf8 "") }

/-- Upstream 200 text/plain response whose body is the real domain. -/
def respTextPlain : Response :=
  { status := 200, contentType := some ("text/plain"), headers := [],
    body := .plain (.utf8 "example.com") }

/-- Upstream 200 text/html response with a non-utf-8 body. -/
def respHtmlRaw : Response :=
  { status := 200, contentType := some ("text/html"), headers := [],
    body := .plain (.raw [200, 201]) }

/-- The body produced by the inbound body rewrite, as a function of the
Content-Type essence and the body (the body-relevant content of
`inboundBody`): a utf-8 body is restore-substituted, and a body that
fails utf-8 decoding has already been consumed by `body_string`, leaving
the empty body. -/
def inboundBodyVal (cfg : Config) (ct? : Option String) (b : Body) : Body :=
  match ct? with
  | some ct =>
    if ct = "application/x-www-form-urlencoded" ∨ ct = "text/plain" then
      match b with
      | .utf8 s => .utf8 (restore_domain cfg s)
      | .raw _ => .utf8 ""
    else b
  | none => b

/-! # Theorems -/

/-! ## Header bookkeeping lemmas -/

theorem filter_beq_filter_not_beq (l : List (String × String)) (n n' : String) :
    (l.filter (fun p => !(p.1 == n'))).filter (fun p => p.1 == n)
      = if n' = n then [] else l.filter (fun p => p.1 == n) := by
  induction l with
  | nil => by_cases h : n' = n <;> simp [h]
  | cons a t ih =>
    by_cases h1 : a.1 = n' <;> by_cases h2 : a.1 = n <;> by_cases h3 : n' = n <;>
      simp_all [List.filter_cons]

theorem headerValues_insertHeader (r : Request) (n n' v : String) :
    headerValues (insertHeader r n' v) n = if n' = n then [v] else headerValues r n := by
  simp only [headerValues, insertHeader, List.filter_append, List.map_append,
    filter_beq_filter_not_beq]
  by_cases h : n' = n <;> simp [h, List.filter_cons]

theorem headerValues_insertHeader_self (r : Request) (n v : String) :
    headerValues (insertHeader r n v) n = [v] := by
  simp [headerValues_insertHeader]

theorem headerValues_insertHeader_ne (r : Request) {n n' : String} (h : n' ≠ n) (v : String) :
    headerValues (insertHeader r n' v) n = headerValues r n := by
  simp [headerValues_insertHeader, h]

theorem headerValuesR_insertHeaderR (r : Response) (n n' v : String) :
    headerValuesR (insertHeaderR r n' v) n = if n' = n then [v] else headerValuesR r n := by
  simp only [headerValuesR, insertHeaderR, List.filter_append, List.map_append,
    filter_beq_filter_not_beq]
  by_cases h : n' = n <;> simp [h, List.filter_cons]

theorem headerValuesR_insertHeaderR_ne (r : Response) {n n' : String} (h : n' ≠ n) (v : String) :
    headerValuesR (insertHeaderR r n' v) n = headerValuesR r n := by
  simp [headerValuesR_insertHeaderR, h]

theorem insertHeader_body (r : Request) (n v : String) :
    (insertHeader r n v).body = r.body := rfl

theorem insertHeader_contentType (r : Request) (n v : String) :
    (insertHeader r n v).contentType = r.contentType := rfl

theorem insertHeader_domain (r : Request) (n v : String) :
    (insertHeader r n v).domain = r.domain := rfl

theorem insertHeader_scheme (r : Request) (n v : String) :
    (insertHeader r n v).scheme = r.scheme := rfl

theorem insertHeaderR_status (r : Response) (n v : String) :
    (insertHeaderR r n v).status = r.status := rfl

theorem insertHeaderR_body (r : Response) (n v : String) :
    (insertHeaderR r n v).body = r.body := rfl

theorem insertHeaderR_contentType (r : Response) (n v : String) :
    (insertHeaderR r n v).contentType = r.contentType := rfl

/-! ## Preservation lemmas for the rewriting stages -/

theorem restStep_body (cfg : Config) (r : Request) (m : String) :
    (restStep cfg r m).body = r.body := by
  unfold restStep; split <;> rfl

theorem restStep_contentType (cfg : Config) (r : Request) (m : String) :
    (restStep cfg r m).contentType = r.contentType := by
  unfold restStep; split <;> rfl

theorem restStep_domain (cfg : Config) (r : Request) (m : String) :
    (restStep cfg r m).domain = r.domain := by
  unfold restStep; split <;> rfl

theorem restStep_scheme (cfg : Config) (r : Request) (m : String) :
    (restStep cfg r m).scheme = r.scheme := by
  unfold restStep; split <;> rfl

theorem restStep_headerValues (cfg : Config) (r : Request) {m n : String} (h : m ≠ n) :
    headerValues (restStep cfg r m) n = headerValues r n := by
  unfold restStep; split
  · exact headerValues_insertHeader_ne r h _
  · rfl

theorem restoreHeader_eq (cfg : Config) (r : Request) :
    restoreHeader cfg r = restStep cfg (restStep cfg r hdrOrigin) hdrReferer := rfl

theorem restoreHeader_body (cfg : Config) (r : Request) :
    (restoreHeader cfg r).body = r.body := by
  rw [restoreHeader_eq, restStep_body, restStep_body]

theorem restoreHeader_contentType (cfg : Config) (r : Request) :
    (restoreHeader cfg r).contentType = r.contentType := by
  rw [restoreHeader_eq, restStep_contentType, restStep_contentType]

theorem restoreHeader_domain (cfg : Config) (r : Request) :
    (restoreHeader cfg r).domain = r.domain := by
  rw [restoreHeader_eq, restStep_domain, restStep_domain]

theorem restoreHeader_scheme (cfg : Config) (r : Request) :
    (restoreHeader cfg r).scheme = r.scheme := by
  rw [restoreHeader_eq, restStep_scheme, restStep_scheme]

theorem restoreHeader_headerValues (cfg : Config) (r : Request) {n : String}
    (h1 : hdrOrigin ≠ n) (h2 : hdrReferer ≠ n) :
    headerValues (restoreHeader cfg r) n = headerValues r n := by
  rw [restoreHeader_eq, restStep_headerValues cfg _ h2, restStep_headerValues cfg _ h1]

theorem inboundBody_headers (cfg : Config) (r : Request) :
    (inboundBody cfg r).headers = r.headers := by
  unfold inboundBody; split
  · split
    · split <;> rfl
    · rfl
  · rfl

theorem inboundBody_headerValues (cfg : Config) (r : Request) (n : String) :
    headerValues (inboundBody cfg r) n = headerValues r n := by
  simp [headerValues, inboundBody_headers]

theorem inboundBody_scheme (cfg : Config) (r : Request) :
    (inboundBody cfg r).scheme = r.scheme := by
  unfold inboundBody; split
  · split
    · split <;> rfl
    · rfl
  · rfl

theorem replStep_status (cfg : Config) (r : Response) (m : String) :
    (replStep cfg r m).status = r.status := by
  unfold replStep; split <;> rfl

theorem replStep_body (cfg : Config) (r : Response) (m : String) :
    (replStep cfg r m).body = r.body := by
  unfold replStep; split <;> rfl

theorem replStep_contentType (cfg : Config) (r : Response) (m : String) :
    (replStep cfg r m).contentType = r.contentType := by
  unfold replStep; split <;> rfl

theorem replStep_headerValuesR (cfg : Config) (r : Response) {m n : String} (h : m ≠ n) :
    headerValuesR (replStep cfg r m) n = headerValuesR r n := by
  unfold replStep; split
  · exact headerValuesR_insertHeaderR_ne r h _
  · rfl

theorem foldl_replStep_status (cfg : Config) :
    ∀ (l : List String) (r : Response), (l.foldl (replStep cfg) r).status = r.status := by
  intro l
  induction l with
  | nil => intro r; rfl
  | cons a t ih => intro r; rw [List.foldl_cons, ih, replStep_status]

theorem foldl_replStep_body (cfg : Config) :
    ∀ (l : List String) (r : Response), (l.foldl (replStep cfg) r).body = r.body := by
  intro l
  induction l with
  | nil => intro r; rfl
  | cons a t ih => intro r; rw [List.foldl_cons, ih, replStep_body]

theorem foldl_replStep_contentType (cfg : Config) :
    ∀ (l : List String) (r : Response), (l.foldl (replStep cfg) r).contentType = r.contentType := by
  intro l
  induction l with
  | nil => intro r; rfl
  | cons a t ih => intro r; rw [List.foldl_cons, ih, replStep_contentType]

theorem foldl_replStep_headerValuesR (cfg : Config) :
    ∀ (l : List String) (r : Response) (n : String), n ∉ l →
      headerValuesR (l.foldl (replStep cfg) r) n = headerValuesR r n := by
  intro l
  induction l with
  | nil => intro r n _; rfl
  | cons a t ih =>
    intro r n hn
    have hna : a ≠ n := fun h => hn (by rw [h]; exact List.mem_cons_self n t)
    rw [List.foldl_cons, ih _ _ (fun h => hn (List.mem_cons_of_mem a h)),
      replStep_headerValuesR cfg r hna]

theorem replaceHeader_status (cfg : Config) (r : Response) :
    (replaceHeader cfg r).status = r.status :=
  foldl_replStep_status cfg replaceHeaderNames r

theorem replaceHeader_body (cfg : Config) (r : Response) :
    (replaceHeader cfg r).body = r.body :=
  foldl_replStep_body cfg replaceHeaderNames r

theorem replaceHeader_contentType (cfg : Config) (r : Response) :
    (replaceHeader cfg r).contentType = r.contentType :=
  foldl_replStep_contentType cfg replaceHeaderNames r

theorem replaceHeader_headerValuesR (cfg : Config) (r : Response) {n : String}
    (h : n ∉ replaceHeaderNames) :
    headerValuesR (replaceHeader cfg r) n = headerValuesR r n :=
  foldl_replStep_headerValuesR cfg replaceHeaderNames r n h

/-! ## Request rewrite lemmas -/

theorem inboundBody_body (cfg : Config) (r : Request) :
    (inboundBody cfg r).body = inboundBodyVal cfg r.contentType r.body := by
  unfold inboundBody inboundBodyVal
  split <;> try rfl
  split <;> try rfl
  split <;> simp_all

theorem rewriteRequest2_scheme (cfg : Config) (r : Request) (d : String) :
    (rewriteRequest2 cfg r d).scheme = r.scheme := by
  unfold rewriteRequest2
  rw [inboundBody_scheme, restoreHeader_scheme, insertHeader_scheme]

theorem rewriteRequest2_body (cfg : Config) (r : Request) (d : String) :
    (rewriteRequest2 cfg r d).body = inboundBodyVal cfg r.contentType r.body := by
  unfold rewriteRequest2
  rw [inboundBody_body]
  have h1 : (restoreHeader cfg (insertHeader { r with domain := some (restore_domain cfg d) }
      hdrHost (restore_domain cfg d))).contentType = r.contentType := by
    rw [restoreHeader_contentType, insertHeader_contentType]
  have h2 : (restoreHeader cfg (insertHeader { r with domain := some (restore_domain cfg d) }
      hdrHost (restore_domain cfg d))).body = r.body := by
    rw [restoreHeader_body, insertHeader_body]
  rw [h1, h2]

theorem rewriteRequest2_headerValues (cfg : Config) (r : Request) (d : String) {n : String}
    (h1 : hdrHost ≠ n) (h2 : hdrOrigin ≠ n) (h3 : hdrReferer ≠ n) :
    headerValues (rewriteRequest2 cfg r d) n = headerValues r n := by
  unfold rewriteRequest2
  rw [inboundBody_headerValues, restoreHeader_headerValues cfg _ h2 h3,
    headerValues_insertHeader_ne _ h1]
  simp [headerValues]

theorem rewriteRequest_success (cfg : Config) (r : Request) (d : String)
    (hdom : r.domain = some d) (huh : cfg.use_https = none)
    (hxs : headerFirst r hdrXScheme = none) :
    ∃ R, rewriteRequest cfg r = .ok R ∧ R.scheme = r.scheme
      ∧ R.body = inboundBodyVal cfg r.contentType r.body := by
  refine ⟨rewriteRequest2 cfg
    { r with query := r.query.map (fun qv => (qv.1, restore_domain cfg qv.2)),
             path := restore_domain cfg r.path } d, ?_, ?_, ?_⟩
  · simp only [rewriteRequest, hdom, huh, hxs]
  · rw [rewriteRequest2_scheme]
  · rw [rewriteRequest2_body]

theorem rewriteRequest_ok_headerValues (cfg : Config) (r r' : Request)
    (h : rewriteRequest cfg r = .ok r') {n : String}
    (h1 : hdrHost ≠ n) (h2 : hdrOrigin ≠ n) (h3 : hdrReferer ≠ n) :
    headerValues r' n = headerValues r n := by
  unfold rewriteRequest at h
  cases hdom : r.domain with
  | none => rw [hdom] at h; exact absurd h (by simp)
  | some d =>
    rw [hdom] at h
    simp only at h
    split at h
    · split at h
      · injection h with h'
        subst h'
        exact rewriteRequest2_headerValues cfg _ d h1 h2 h3
      · exact absurd h (by simp)
    · injection h with h'
      subst h'
      exact rewriteRequest2_headerValues cfg _ d h1 h2 h3

/-! ## Forward pipeline lemmas -/

theorem forwardCore_loop (cfg : Config) (up : Request → Response) (req : Request)
    (h : headerValues req hdrXWJ ≠ []) :
    forwardCore cfg up req = (httpError "may be circular request", none) := by
  unfold forwardCore
  rw [if_pos h]

theorem forwardCore_upstream (cfg : Config) (up : Request → Response) (req : Request)
    (r' : Request) (h : (forwardCore cfg up req).2 = some r') :
    rewriteRequest cfg (insertHeader req hdrXWJ "true") = .ok r' := by
  unfold forwardCore at h
  split at h
  · simp at h
  · simp only at h
    split at h
    · simp at h
    · rename_i R hok
      split at h
      · simp at h
      · split at h
        · simp only [Prod.snd] at h
          injection h with h
          rw [hok, h]
        · simp at h

theorem forward_proceed (cfg : Config) (tokens : List String) (fresh : String)
    (up : Request → Response) (req : Request)
    (hgate : authGate cfg tokens fresh req = .proceed) :
    forward cfg tokens fresh up req
      = some ⟨(forwardCore cfg up req).1, (forwardCore cfg up req).2, tokens⟩ := by
  simp only [forward, hgate]

theorem forward_upstreamBody (cfg : Config) (tokens : List String) (fresh : String)
    (up : Request → Response) (req : Request) (d : String)
    (hgate : authGate cfg tokens fresh req = .proceed)
    (hloop : headerValues req hdrXWJ = [])
    (hdom : req.domain = some d)
    (huh : cfg.use_https = none)
    (hxs : headerFirst req hdrXScheme = none)
    (hsch : req.scheme = schemeHttp) :
    upstreamBody (forward cfg tokens fresh up req)
      = some (inboundBodyVal cfg req.contentType req.body) := by
  have hd1 : (insertHeader req hdrXWJ "true").domain = some d := by
    rw [insertHeader_domain]; exact hdom
  have hne : hdrXWJ ≠ hdrXScheme := by simp [hdrXWJ, hdrXScheme]
  have hxs1 : headerFirst (insertHeader req hdrXWJ "true") hdrXScheme = none := by
    unfold headerFirst at hxs ⊢
    rw [headerValues_insertHeader_ne req hne _]
    exact hxs
  obtain ⟨R, hok, hsR, hbR⟩ :=
    rewriteRequest_success cfg (insertHeader req hdrXWJ "true") d hd1 huh hxs1
  have hs : R.scheme = schemeHttp := by rw [hsR, insertHeader_scheme, hsch]
  rw [forward_proceed cfg tokens fresh up req hgate]
  unfold forwardCore
  rw [if_neg (by simp [hloop])]
  simp only [hok, hs]
  simp [portOrKnownDefault, upstreamBody, hbR, insertHeader_contentType, insertHeader_body]

/-! ## Response processing lemmas -/

theorem processResponse_304 (cfg : Config) (resp : Response) (h : resp.status = 304) :
    processResponse cfg resp = replaceHeader cfg resp := by
  unfold processResponse
  simp only [replaceHeader_status, h, if_true]

theorem coderCode_noEncoding (dir : CoderDir) (resp : Response)
    (h : headerFirstR resp hdrContentEncoding = none) :
    coderCode dir resp = resp := by
  unfold coderCode
  rw [h]

theorem processResponse_rewrite (cfg : Config) (resp : Response) (ct s : String)
    (hst : resp.status ≠ 304)
    (hct : resp.contentType = some ct)
    (hin : ct = "text/html" ∨ ct = "text/javascript" ∨ ct = "application/json"
      ∨ ct = "application/manifest+json")
    (henc : headerValuesR resp hdrContentEncoding = [])
    (hb : resp.body = .plain (.utf8 s)) :
    (processResponse cfg resp).body = .plain (.utf8 (replace_domain cfg s)) := by
  have hcein : hdrContentEncoding ∉ replaceHeaderNames := by
    simp [hdrContentEncoding, replaceHeaderNames]
  have henc1 : headerValuesR (replaceHeader cfg resp) hdrContentEncoding = [] := by
    rw [replaceHeader_headerValuesR cfg resp hcein]; exact henc
  have hf1 : headerFirstR (replaceHeader cfg resp) hdrContentEncoding = none := by
    unfold headerFirstR; rw [henc1]; rfl
  unfold processResponse
  rw [if_neg (by rw [replaceHeader_status]; exact hst)]
  rw [coderCode_noEncoding _ _ hf1]
  simp only [replaceHeader_contentType, hct]
  rw [if_pos hin]
  simp only [replaceHeader_body, hb]
  have hf2 : headerFirstR
      { status := (replaceHeader cfg resp).status, contentType := some ct,
        headers := (replaceHeader cfg resp).headers,
        body := RespBody.plain (.utf8 (replace_domain cfg s)) } hdrContentEncoding = none := hf1
  rw [coderCode_noEncoding _ _ hf2]

theorem processResponse_ct_passthrough (cfg : Config) (resp : Response) (ct : String)
    (hst : resp.status ≠ 304)
    (hct : resp.contentType = some ct)
    (hout : ¬(ct = "text/html" ∨ ct = "text/javascript" ∨ ct = "application/json"
      ∨ ct = "application/manifest+json"))
    (henc : headerValuesR resp hdrContentEncoding = []) :
    (processResponse cfg resp).body = resp.body := by
  have hcein : hdrContentEncoding ∉ replaceHeaderNames := by
    simp [hdrContentEncoding, replaceHeaderNames]
  have henc1 : headerValuesR (replaceHeader cfg resp) hdrContentEncoding = [] := by
    rw [replaceHeader_headerValuesR cfg resp hcein]; exact henc
  have hf1 : headerFirstR (replaceHeader cfg resp) hdrContentEncoding = none := by
    unfold headerFirstR; rw [henc1]; rfl
  unfold processResponse
  rw [if_neg (by rw [replaceHeader_status]; exact hst)]
  rw [coderCode_noEncoding _ _ hf1]
  simp only [replaceHeader_contentType, hct]
  rw [if_neg hout]
  rw [coderCode_noEncoding _ _ hf1, replaceHeader_body]

/-! ## Cookie-lookup lemmas (claim C5) -/

theorem getLast?_append_orElse {β : Type} (A B : List β) :
    (A ++ B).getLast? = (B.getLast?).orElse (fun _ => A.getLast?) := by
  cases hB : B.getLast? with
  | none =>
    rw [List.getLast?_eq_none_iff] at hB
    subst hB
    simp
  | some b =>
    have hne : B ≠ [] := by
      intro h
      subst h
      simp at hB
    rw [List.getLast?_append_of_ne_nil _ hne, hB]
    rfl

theorem foldl_override {α β : Type} (f : α → Option β) (l : List α) :
    ∀ acc : Option β,
      l.foldl (fun a x => (f x).orElse (fun _ => a)) acc
        = ((l.filterMap f).getLast?).orElse (fun _ => acc) := by
  induction l with
  | nil => intro acc; rfl
  | cons x l ih =>
    intro acc
    rw [List.foldl_cons, ih]
    cases hfx : f x with
    | none => simp [List.filterMap_cons, hfx]
    | some b =>
      simp only [List.filterMap_cons, hfx]
      cases hL : l.filterMap f with
      | nil => simp
      | cons c L =>
        rw [List.getLast?_cons_cons]
        cases hcl : (c :: L).getLast? with
        | none =>
          rw [List.getLast?_eq_none_iff] at hcl
          exact absurd hcl (List.cons_ne_nil c L)
        | some t => rfl

theorem parseToken_eq_lastTokenPair (values : List String) :
    parseToken values = lastTokenPair values := by
  suffices h : ∀ acc,
      values.foldl
        (fun acc v =>
          (strSplit v sepCookiePair).foldl
            (fun acc2 item => (tokenOfItem item).orElse (fun _ => acc2))
            acc)
        acc
      = (((values.flatMap (fun v => strSplit v sepCookiePair)).filterMap
            tokenOfItem).getLast?).orElse (fun _ => acc) by
    unfold parseToken lastTokenPair
    rw [h none]
    cases ((values.flatMap (fun v => strSplit v sepCookiePair)).filterMap
      tokenOfItem).getLast? <;> rfl
  intro acc
  induction values generalizing acc with
  | nil => rfl
  | cons v vs ih =>
    rw [List.foldl_cons, ih, foldl_override, List.flatMap_cons, List.filterMap_append,
      getLast?_append_orElse]
    cases h1 : ((vs.flatMap (fun v => strSplit v sepCookiePair)).filterMap
        tokenOfItem).getLast? <;>
      cases h2 : ((strSplit v sepCookiePair).filterMap tokenOfItem).getLast? <;> rfl

/-! ## Substitution lemmas (claim C6) -/

theorem replaceAux_noOccur (pat rep : List Char) :
    ∀ (fuel : Nat) (s : List Char), listInfixB pat s = false →
      replaceAux pat rep fuel s = s := by
  intro fuel
  induction fuel with
  | zero => intro s _; cases s <;> rfl
  | succ fuel ih =>
    intro s h
    cases s with
    | nil => rfl
    | cons c rest =>
      unfold listInfixB at h
      rw [Bool.or_eq_false_iff] at h
      have hnc : ¬(pat ≠ [] ∧ pat.isPrefixOf (c :: rest) = true) := by
        intro hc
        rw [h.1] at hc
        exact Bool.false_ne_true hc.2
      unfold replaceAux
      rw [if_neg hnc, ih rest h.2]

theorem listInfixB_nil_pat (s : List Char) : listInfixB [] s = true := by
  cases s <;> simp [listInfixB, List.isPrefixOf]

theorem strReplace_noOccur (s pat rep : String) (h : containsStr s pat = false) :
    strReplace s pat rep = s := by
  unfold containsStr at h
  have hne : pat.data ≠ [] := by
    intro hp
    rw [hp, listInfixB_nil_pat] at h
    exact absurd h (by simp)
  unfold strReplace
  rw [if_neg hne, replaceAux_noOccur pat.data rep.data _ _ h]

theorem foldl_strReplace_noOccur (s : String) (f : String × String → String × String) :
    ∀ l : List (String × String), (∀ kv ∈ l, containsStr s (f kv).1 = false) →
      l.foldl (fun result kv => strReplace result (f kv).1 (f kv).2) s = s := by
  intro l
  induction l with
  | nil => intro _; rfl
  | cons kv t ih =>
    intro h
    rw [List.foldl_cons, strReplace_noOccur s (f kv).1 (f kv).2 (h kv (List.mem_cons_self kv t))]
    exact ih (fun p hp => h p (List.mem_cons_of_mem kv hp))

theorem replace_domain_noOccur (cfg : Config) (s : String)
    (h : ∀ kv ∈ cfg.domain_name, containsStr s kv.2 = false) :
    replace_domain cfg s = s :=
  foldl_strReplace_noOccur s (fun kv => (kv.2, kv.1)) cfg.domain_name h

theorem restore_domain_noOccur (cfg : Config) (s : String)
    (h : ∀ kv ∈ cfg.domain_name, containsStr s kv.1 = false) :
    restore_domain cfg s = s :=
  foldl_strReplace_noOccur s (fun kv => (kv.1, kv.2)) cfg.domain_name h

/-! ## Domain-conflict lemmas (claim C8) -/

theorem listInfixB_iff (p : List Char) : ∀ s : List Char, listInfixB p s = true ↔ p <:+: s := by
  intro s
  induction s with
  | nil => simp [listInfixB, List.isEmpty_iff, List.infix_nil]
  | cons c rest ih =>
    simp only [listInfixB, Bool.or_eq_true, List.isPrefixOf_iff_prefix, ih]
    constructor
    · rintro (h | h)
      · exact h.isInfix
      · exact h.trans (List.infix_cons_iff.mpr (Or.inr List.infix_rfl))
    · intro h
      rcases List.infix_cons_iff.mp h with h' | h'
      · exact Or.inl h'
      · exact Or.inr h'

theorem containsStr_iff (hay pat : String) :
    containsStr hay pat = true ↔ pat.data <:+: hay.data :=
  listInfixB_iff pat.data hay.data

theorem findConflict_none_iff (keys : List String) :
    findConflict keys = none
      ↔ ∀ a1 ∈ keys, ∀ a2 ∈ keys, a2 ≠ a1 → ¬(a1.data <:+: a2.data) := by
  unfold findConflict
  rw [List.findSome?_eq_none_iff]
  constructor
  · intro h a1 h1 a2 h2 hne hinf
    have := h a1 h1
    rw [List.findSome?_eq_none_iff] at this
    have h2' := this a2 h2
    rw [if_pos ⟨hne, (containsStr_iff a2 a1).mpr hinf⟩] at h2'
    exact absurd h2' (by simp)
  · intro h i hi
    rw [List.findSome?_eq_none_iff]
    intro j hj
    rw [if_neg]
    intro hc
    exact h i hi j hj hc.1 ((containsStr_iff j i).mp hc.2)

theorem findConflict_some (keys : List String) (j i : String)
    (h : findConflict keys = some (j, i)) :
    j ∈ keys ∧ i ∈ keys ∧ j ≠ i ∧ i.data <:+: j.data := by
  unfold findConflict at h
  obtain ⟨a, ha, h2⟩ := List.exists_of_findSome?_eq_some h
  obtain ⟨b, hb, h3⟩ := List.exists_of_findSome?_eq_some h2
  by_cases hc : b ≠ a ∧ containsStr b a = true
  · rw [if_pos hc] at h3
    injection h3 with h3
    injection h3 with h3a h3b
    rw [← h3a, ← h3b]
    exact ⟨hb, ha, hc.1, (containsStr_iff b a).mp hc.2⟩
  · rw [if_neg hc] at h3
    exact absurd h3 (by simp)

/-! # Claim theorems -/

/-- C1 counterexample: the claim's six-type allow-list is wrong for the
inbound direction and the outbound direction. An inbound request with
essence text/html and utf-8 body containing an alias reaches the
upstream with its body NOT restore-substituted (the code only rewrites
inbound text/plain and application/x-www-form-urlencoded), and an
outbound text/plain response is NOT replace-substituted (the code only
rewrites four outbound essences). -/
theorem c1_counterexample :
    reqHtmlIn.contentType = some ("text/html")
    ∧ reqHtmlIn.body = .utf8 "mirror.local"
    ∧ upstreamBody (forward cfg1 [] "t" up0 reqHtmlIn) = some (.utf8 "mirror.local")
    ∧ restore_domain cfg1 ("mirror.local") ≠ "mirror.local"
    ∧ respTextPlain.contentType = some ("text/plain")
    ∧ respTextPlain.body = .plain (.utf8 "example.com")
    ∧ (processResponse cfg1 respTextPlain).body = .plain (.utf8 "example.com")
    ∧ replace_domain cfg1 ("example.com") ≠ "example.com" := by
  decide

/-- C1 amended: the inbound body rewrite applies exactly to Content-Type
essences text/plain and application/x-www-form-urlencoded (utf-8 bodies
are restore-substituted before the upstream exchange, all other essences
such as text/html pass through unchanged), and the outbound body rewrite
applies exactly to essences text/html, text/javascript, application/json
and application/manifest+json (utf-8 bodies of non-304 responses are
replace-substituted). -/
theorem c1_amended (cfg : Config) (tokens : List String) (fresh : String)
    (up : Request → Response) (req : Request) (d s : String)
    (hgate : authGate cfg tokens fresh req = .proceed)
    (hloop : headerValues req hdrXWJ = [])
    (hdom : req.domain = some d)
    (huh : cfg.use_https = none)
    (hxs : headerFirst req hdrXScheme = none)
    (hsch : req.scheme = schemeHttp)
    (hbody : req.body = .utf8 s) :
    ((req.contentType = some ("text/plain")
        ∨ req.contentType = some ("application/x-www-form-urlencoded")) →
      upstreamBody (forward cfg tokens fresh up req) = some (.utf8 (restore_domain cfg s)))
    ∧ (req.contentType = some ("text/html") →
      upstreamBody (forward cfg tokens fresh up req) = some (.utf8 s))
    ∧ (∀ (resp : Response) (ct t : String), resp.status ≠ 304 → resp.contentType = some ct →
        (ct = "text/html" ∨ ct = "text/javascript" ∨ ct = "application/json"
          ∨ ct = "application/manifest+json") →
        headerValuesR resp hdrContentEncoding = [] →
        resp.body = .plain (.utf8 t) →
        (processResponse cfg resp).body = .plain (.utf8 (replace_domain cfg t))) := by
  refine ⟨?_, ?_, ?_⟩
  · intro hct
    rw [forward_upstreamBody cfg tokens fresh up req d hgate hloop hdom huh hxs hsch]
    rcases hct with hct | hct <;> simp [inboundBodyVal, hct, hbody]
  · intro hct
    rw [forward_upstreamBody cfg tokens fresh up req d hgate hloop hdom huh hxs hsch]
    simp [inboundBodyVal, hct, hbody]
  · intro resp ct t h1 h2 h3 h4 h5
    exact processResponse_rewrite cfg resp ct t h1 h2 h3 h4 h5

/-- C1 amended witness: the amended claim applied to the concrete
text/plain request whose body is the alias mirror.local; the upstream
request carries the restored body example.com. -/
theorem c1_amended_witness :
    authGate cfg1 [] "t" reqPlainIn = .proceed
    ∧ headerValues reqPlainIn hdrXWJ = []
    ∧ reqPlainIn.contentType = some ("text/plain")
    ∧ upstreamBody (forward cfg1 [] "t" up0 reqPlainIn)
        = some (.utf8 (restore_domain cfg1 ("mirror.local"))) := by
  refine ⟨by decide, by decide, by decide, ?_⟩
  exact (c1_amended cfg1 [] "t" up0 reqPlainIn ("mirror.local") ("mirror.local")
    (by decide) (by decide) (by decide) (by decide) (by decide) (by decide) (by decide)).1
    (Or.inl (by decide))

/-- C2 counterexample: the authorization gate runs before the loop check,
so a request that carries X-Web-Jingzi but hits a protected alias without
a valid cookie is answered with the 200 login page, not with the 500
circular-request error, contradicting the claim's unconditional 500. -/
theorem c2_counterexample :
    headerValues reqLoop hdrXWJ ≠ []
    ∧ forward cfgAuth [] "t" up0 reqLoop = some ⟨loginPageResp, none, []⟩
    ∧ loginPageResp.status = 200 := by
  decide

/-- C2 amended: for every request the authorization gate lets through, a
request already carrying X-Web-Jingzi is answered 500 "may be circular
request" with no upstream exchange, and otherwise any request sent
upstream carries X-Web-Jingzi: true exactly once. -/
theorem c2_amended (cfg : Config) (tokens : List String) (fresh : String)
    (up : Request → Response) (req : Request)
    (hgate : authGate cfg tokens fresh req = .proceed) :
    (headerValues req hdrXWJ ≠ [] →
      forward cfg tokens fresh up req
        = some ⟨httpError "may be circular request", none, tokens⟩)
    ∧ (headerValues req hdrXWJ = [] →
      ∀ (o : Outcome) (r' : Request), forward cfg tokens fresh up req = some o →
        o.upstreamReq = some r' → headerValues r' hdrXWJ = ["true"]) := by
  constructor
  · intro h
    rw [forward_proceed cfg tokens fresh up req hgate, forwardCore_loop cfg up req h]
  · intro _ o r' hfo hur
    rw [forward_proceed cfg tokens fresh up req hgate] at hfo
    injection hfo with hfo
    rw [← hfo] at hur
    have h2 : (forwardCore cfg up req).2 = some r' := hur
    have hok := forwardCore_upstream cfg up req r' h2
    have hxne1 : hdrHost ≠ hdrXWJ := by simp [hdrHost, hdrXWJ]
    have hxne2 : hdrOrigin ≠ hdrXWJ := by simp [hdrOrigin, hdrXWJ]
    have hxne3 : hdrReferer ≠ hdrXWJ := by simp [hdrReferer, hdrXWJ]
    rw [rewriteRequest_ok_headerValues cfg _ r' hok hxne1 hxne2 hxne3,
      headerValues_insertHeader_self]

/-- C2 amended witness: with authorization disabled the gate proceeds,
and the concrete sentinel-carrying request is answered with the 500
circular-request error and no upstream exchange. -/
theorem c2_amended_witness :
    authGate cfg1 [] "t" reqLoop = .proceed
    ∧ headerValues reqLoop hdrXWJ ≠ []
    ∧ forward cfg1 [] "t" up0 reqLoop
        = some ⟨httpError "may be circular request", none, []⟩ :=
  ⟨by decide, by decide, (c2_amended cfg1 [] "t" up0 reqLoop (by decide)).1 (by decide)⟩

/-- C3 counterexample: the token store is an in-memory HashSet rebuilt
empty by Forward::new on every process start, so a token inserted before
a restart is no longer contained afterwards, contradicting the claimed
durability. -/
theorem c3_counterexample :
    containsTok (insertTok newTokenStore "tok") "tok" = true
    ∧ containsTok (restartStore (insertTok newTokenStore "tok")) "tok" = false := by
  decide

/-- C3 amended: within a single process run an inserted token validates
(insert then contains returns true), but the store is in-memory only:
after a process restart the store is empty and the token no longer
validates. -/
theorem c3_amended (s : List String) (t : String) :
    containsTok (insertTok s t) t = true
    ∧ containsTok (restartStore (insertTok s t)) t = false := by
  constructor
  · unfold insertTok containsTok
    by_cases h : s.contains t = true
    · rw [if_pos h]; exact h
    · rw [if_neg h]; simp [List.contains_cons]
  · rfl

/-- C4 code evidence: the source compares the request path against
"/__wm__login" (src/server.rs line 63), which the spec explicitly calls a
typo for the canonical "/__wj__login". A login submission at the
canonical path /__wj__login under a protected alias with valid
credentials is answered with the login page (it is treated as an
ordinary gated request), while the same submission at /__wm__login is
treated as a login and issues a token. -/
theorem c4_code_evidence :
    loginPath = "/__wm__login"
    ∧ authGate cfgAuth [] "tok" reqWjLogin = .shortCircuit loginPageResp []
    ∧ authGate cfgAuth [] "tok" reqWmLogin
        = .shortCircuit (appendHeaderR (resultResp true) hdrSetCookie
            (cookieHeaderValue "tok" "mirror.local")) ["tok"] := by
  decide

/-- C5 counterexample: the code's cookie scan takes the LAST matching
pair (the mutable token variable is overwritten), and it splits each item
on every '=' requiring exactly two components, whereas the claim says it
splits on the first '=' and stops at the FIRST match: on
"__wj_token=a; __wj_token=b" the code yields b but the claimed procedure
yields a, and on "__wj_token=a=b" the code yields nothing while the
claimed procedure yields a=b. -/
theorem c5_counterexample :
    parseToken ["__wj_token=a; __wj_token=b"] = some ("b")
    ∧ specCookieLookup ["__wj_token=a; __wj_token=b"] = some ("a")
    ∧ parseToken ["__wj_token=a=b"] = none
    ∧ specCookieLookup ["__wj_token=a=b"] = some ("a=b")
    ∧ parseToken ["__wj_token=a; __wj_token=b"]
        ≠ specCookieLookup ["__wj_token=a; __wj_token=b"] := by
  decide

/-- C5 amended: the token looked up is obtained by splitting each Cookie
header value on "; ", splitting each item on every '=', keeping items
with exactly two components whose name is exactly __wj_token, and taking
the LAST matching pair. -/
theorem c5_amended (values : List String) :
    parseToken values = lastTokenPair values :=
  parseToken_eq_lastTokenPair values

/-- C6 counterexample: the claim's side conditions are swapped. The
string mirror.local contains no real-domain substring, yet
forward-substituting its reverse-substitution yields example.com, not the
original; symmetrically example.com contains no alias substring, yet the
other composition yields mirror.local. (forward_substitute is
restore_domain, alias to real; reverse_substitute is replace_domain, real
to alias.) -/
theorem c6_counterexample :
    containsStr ("mirror.local") ("example.com") = false
    ∧ restore_domain cfg1 (replace_domain cfg1 ("mirror.local")) = "example.com"
    ∧ "example.com" ≠ "mirror.local"
    ∧ containsStr ("example.com") ("mirror.local") = false
    ∧ replace_domain cfg1 (restore_domain cfg1 ("example.com")) = "mirror.local"
    ∧ "mirror.local" ≠ "example.com" := by
  decide

/-- C6 amended: for every string s that contains neither an alias nor a
real-domain substring of any configured entry, both substitutions leave s
unchanged, so both compositions are the identity on s. -/
theorem c6_amended (cfg : Config) (s : String)
    (h : ∀ kv ∈ cfg.domain_name, containsStr s kv.1 = false ∧ containsStr s kv.2 = false) :
    restore_domain cfg (replace_domain cfg s) = s
    ∧ replace_domain cfg (restore_domain cfg s) = s := by
  have h1 := replace_domain_noOccur cfg s (fun kv hkv => (h kv hkv).2)
  have h2 := restore_domain_noOccur cfg s (fun kv hkv => (h kv hkv).1)
  constructor
  · rw [h1, h2]
  · rw [h2, h1]

/-- C6 amended witness: the amended inversion law at a concrete string
containing neither mirror.local nor example.com. -/
theorem c6_amended_witness :
    restore_domain cfg1 (replace_domain cfg1 ("nothing.here")) = "nothing.here"
    ∧ replace_domain cfg1 (restore_domain cfg1 ("nothing.here")) = "nothing.here" :=
  c6_amended cfg1 ("nothing.here") (by decide)

/-- C7 code evidence: a non-utf-8 body on a rewrite-eligible essence is
NOT passed through unchanged. http-types `body_string` take-consumes the
body before utf-8 decoding, and the Err arms at src/server.rs lines
167-174 and 222-228 only log without restoring it, so the concrete
text/plain request with body bytes [255, 254] reaches the upstream with
an empty body, and the concrete text/html response with body bytes
[200, 201] reaches the client with an empty body — contradicting the
claim (and the spec's stated intent) that the original bytes continue
unchanged. -/
theorem c7_code_evidence :
    reqRawIn.contentType = some ("text/plain")
    ∧ reqRawIn.body = .raw [255, 254]
    ∧ upstreamBody (forward cfg1 [] "t" up0 reqRawIn) = some (.utf8 "")
    ∧ upstreamBody (forward cfg1 [] "t" up0 reqRawIn) ≠ some (.raw [255, 254])
    ∧ respHtmlRaw.contentType = some ("text/html")
    ∧ respHtmlRaw.body = .plain (.raw [200, 201])
    ∧ (processResponse cfg1 respHtmlRaw).body = .plain (.utf8 "")
    ∧ (processResponse cfg1 respHtmlRaw).body ≠ .plain (.raw [200, 201]) := by
  decide

/-- C8: the startup domain check fails exactly when two distinct
configured aliases exist with one contained in the other as a substring,
and on failure the reported pair names the two conflicting domains (the
second contained in the first); otherwise the check succeeds. -/
theorem c8_check_domain (keys : List String) :
    (findConflict keys = none
      ↔ ∀ a1 ∈ keys, ∀ a2 ∈ keys, a2 ≠ a1 → ¬(a1.data <:+: a2.data))
    ∧ (∀ j i : String, findConflict keys = some (j, i) →
        j ∈ keys ∧ i ∈ keys ∧ j ≠ i ∧ i.data <:+: j.data) :=
  ⟨findConflict_none_iff keys, fun j i h => findConflict_some keys j i h⟩

/-- C8 witness: the aliases foo.local and oo.local conflict (the error
names both), while mirror.local and other.site pass the check. -/
theorem c8_witness :
    findConflict ["foo.local", "oo.local"] = some ("foo.local", "oo.local")
    ∧ ("foo.local" ∈ (["foo.local", "oo.local"] : List String)
      ∧ "oo.local" ∈ (["foo.local", "oo.local"] : List String)
      ∧ "foo.local" ≠ "oo.local"
      ∧ ("oo.local" : String).data <:+: ("foo.local" : String).data)
    ∧ findConflict ["mirror.local", "other.site"] = none :=
  ⟨by decide,
   (c8_check_domain ["foo.local", "oo.local"]).2 ("foo.local") ("oo.local") (by decide),
   by decide⟩

/-- C9: for every upstream 304 response, the response returned to the
client keeps the status, body and Content-Type of the upstream response
(no decode, rewrite or encode is performed on the body), and every header
whose name is not in the outbound rewrite list (location, set-cookie,
access-control-allow-origin, content-security-policy, x-frame-options)
is unchanged. -/
theorem c9_304_passthrough (cfg : Config) (resp : Response) (h : resp.status = 304) :
    (processResponse cfg resp).status = resp.status
    ∧ (processResponse cfg resp).body = resp.body
    ∧ (processResponse cfg resp).contentType = resp.contentType
    ∧ ∀ n : String, n ∉ replaceHeaderNames →
        headerValuesR (processResponse cfg resp) n = headerValuesR resp n := by
  rw [processResponse_304 cfg resp h]
  exact ⟨replaceHeader_status cfg resp, replaceHeader_body cfg resp,
    replaceHeader_contentType cfg resp, fun n hn => replaceHeader_headerValuesR cfg resp hn⟩

/-- C9 witness: the 304 pass-through applied to a concrete 304 response
with an ETag header, which is preserved. -/
theorem c9_witness :
    resp304.status = 304
    ∧ (processResponse cfg1 resp304).status = 304
    ∧ (processResponse cfg1 resp304).body = resp304.body
    ∧ headerValuesR (processResponse cfg1 resp304) ("etag")
        = headerValuesR resp304 ("etag") := by
  have h := c9_304_passthrough cfg1 resp304 (by decide)
  exact ⟨by decide, h.1.trans (by decide), h.2.1, h.2.2.2 ("etag") (by decide)⟩

/-- C10: with authorization enabled, a protected matching domain, the
request path equal to the login path, but no account list configured,
the authorization gate falls through (no login result, no cookie gate)
and the request is forwarded exactly like an ordinary request. -/
theorem c10_no_account_fallthrough (cfg : Config) (tokens : List String) (fresh : String)
    (up : Request → Response) (req : Request) (dl : List String) (d m : String)
    (hen : cfg.authorization.enabled = true)
    (hdl : cfg.authorization.domain_list = some dl)
    (hacc : cfg.authorization.account = none)
    (hdom : req.domain = some d)
    (hm : checkDomainListInDomain dl d = some m)
    (hpath : req.path = loginPath) :
    authGate cfg tokens fresh req = .proceed
    ∧ forward cfg tokens fresh up req
        = some ⟨(forwardCore cfg up req).1, (forwardCore cfg up req).2, tokens⟩ := by
  have hg : authGate cfg tokens fresh req = .proceed := by
    unfold authGate
    rw [hen, hdl, hdom]
    simp [hm, hacc, hpath]
  exact ⟨hg, forward_proceed cfg tokens fresh up req hg⟩

/-- C10 witness: the fall-through at the concrete configuration
protecting mirror.local with no accounts and the concrete login-path
request. -/
theorem c10_witness :
    authGate cfgAuthNoAcct [] "t" reqWmLogin = .proceed
    ∧ forward cfgAuthNoAcct [] "t" up0 reqWmLogin
        = some ⟨(forwardCore cfgAuthNoAcct up0 reqWmLogin).1,
            (forwardCore cfgAuthNoAcct up0 reqWmLogin).2, []⟩ :=
  c10_no_account_fallthrough cfgAuthNoAcct [] "t" up0 reqWmLogin ["mirror.local"]
    ("mirror.local") ("mirror.local") (by decide) (by decide) (by decide) (by decide)
    (by decide) (by decide)
